import Mathlib

/-
  Verification development for the question-generation pipeline
  (agent.py, openai_module.py, main.py).

  Python strings are modelled as List Char (one entry per code point,
  matching Python string indexing).  Machine-level collaborators
  (the HTTP transport, BeautifulSoup, the OpenAI client, urlparse) are
  modelled as oracles supplied as explicit arguments; everything that the
  repository itself computes is translated function by function.
-/

namespace UQ

/-! Python str helpers (str.strip, re.sub whitespace collapse, str.split,
    str.rfind, str.split with maxsplit 1). -/

/-- Python whitespace test for the ASCII whitespace characters that
    str.strip and the regex class collapse. -/
def py_is_space (c : Char) : Bool :=
  c = ' ' || c = '\t' || c = '\n' || c = '\r' || c = Char.ofNat 11 || c = Char.ofNat 12

/-- Python str.strip: drop whitespace from both ends. -/
def py_strip (l : List Char) : List Char :=
  ((l.dropWhile py_is_space).reverse.dropWhile py_is_space).reverse

/-- Helper for the whitespace collapse of clean_text: the Bool records
    whether the previous character was part of a whitespace run. -/
def collapse_ws_go : Bool → List Char → List Char
  | _, [] => []
  | inRun, c :: rest =>
    if py_is_space c then
      if inRun then collapse_ws_go true rest
      else ' ' :: collapse_ws_go true rest
    else c :: collapse_ws_go false rest

/-- Python re.sub of a whitespace run by a single space (agent.clean_text
    first step): every maximal run of whitespace becomes one space. -/
def collapse_ws (l : List Char) : List Char := collapse_ws_go false l

/-- agent.clean_text: collapse whitespace runs to single spaces, then strip. -/
def clean_text (l : List Char) : List Char := py_strip (collapse_ws l)

/-- Python str.split on a single separator character (no maxsplit):
    splitting the empty string yields one empty piece, like Python. -/
def split_on_char (sep : Char) : List Char → List (List Char)
  | [] => [[]]
  | a :: rest =>
    match split_on_char sep rest with
    | h :: t => if a = sep then [] :: h :: t else (a :: h) :: t
    | [] => if a = sep then [[], []] else [[a]]

/-- Python str.split(sep, 1): the pieces before and after the first
    occurrence of sep, or none when sep does not occur. -/
def split_first (sep : Char) : List Char → Option (List Char × List Char)
  | [] => none
  | a :: rest =>
    if a = sep then some ([], rest)
    else
      match split_first sep rest with
      | some (p, s) => some (a :: p, s)
      | none => none

/-- Python str.rfind for one character, as an Option: the index of the
    last occurrence, or none when the character is absent (Python -1). -/
def last_index_of : List Char → Char → Option Nat
  | [], _ => none
  | a :: rest, c =>
    match last_index_of rest c with
    | some i => some (i + 1)
    | none => if a = c then some 0 else none

/-! The smart truncator (agent.smart_truncate_text). -/

/-- MAX_TEXT_LENGTH from agent.py. -/
def MAX_TEXT_LENGTH : Nat := 10000

/-- MAX_TEXT_LENGTH_FOR_OPENAI from agent.py. -/
def MAX_TEXT_LENGTH_FOR_OPENAI : Nat := 8000

/-- MIN_TEXT_LENGTH from agent.py. -/
def MIN_TEXT_LENGTH : Nat := 50

/-- The sentence_endings list of agent.smart_truncate_text: ASCII and
    full-width period, exclamation and question marks. -/
def sentence_endings : List Char := ['.', '!', '?', '。', '！', '？']

/-- Bit length by fuelled halving; the fuel 1100 covers every value that
    can arise below the binary64 overflow threshold (Python raises
    OverflowError converting an int of 1025 or more bits to float, so the
    products rounded here stay below 2 to the 1078). -/
def bitlen_go : Nat → Nat → Nat
  | 0, _ => 0
  | fuel + 1, n => if n = 0 then 0 else bitlen_go fuel (n / 2) + 1

/-- Number of binary digits of n (0 for 0). -/
def bitlen (n : Nat) : Nat := bitlen_go 1100 n

/-- IEEE-754 round-to-nearest, ties-to-even, of n to 53 significant bits:
    the value of the binary64 double nearest to n, still as an integer at
    the same scale.  Values of at most 53 bits are exact. -/
def rn53 (n : Nat) : Nat :=
  if bitlen n ≤ 53 then n
  else
    let s := bitlen n - 53
    let q := n / 2 ^ s
    let r := n % 2 ^ s
    let half := 2 ^ (s - 1)
    (if half < r then q + 1
     else if r < half then q
     else if q % 2 = 0 then q else q + 1) * 2 ^ s

/-- The significand of the binary64 double nearest the literal 0.7: that
    double is float07_sig / 2 to the 53 (0.7 itself is not representable
    and rounds down to this value). -/
def float07_sig : Nat := 6305039478318694

/-- The binary64 value Python computes for max_length * 0.7, scaled by
    2 to the 53: the int max_length is first rounded to a double, then
    multiplied by the double nearest 0.7 with one more rounding — both
    with round-to-nearest, ties-to-even.  The window test
    pos > max_length * 0.7 of the source compares the integer pos with
    this double exactly, which is pos * 2 ^ 53 > float07_scaled maxL. -/
def float07_scaled (maxL : Nat) : Nat := rn53 (rn53 maxL * float07_sig)

/-- The per-delimiter step of the truncator loop: the rfind position of
    the delimiter in the prefix, kept only when it passes the window test
    pos > max_length * 0.7, with the float product modelled exactly by
    float07_scaled. -/
def ending_pos (maxL : Nat) (tr : List Char) (c : Char) : Option Nat :=
  match last_index_of tr c with
  | some p => if float07_scaled maxL < p * 2 ^ 53 then some p else none
  | none => none

/-- Accumulator step for the running maximum of the truncator loop
    (Python last_sentence_end, with none standing for the initial -1). -/
def option_max : Option Nat → Nat → Option Nat
  | some a, p => some (max a p)
  | none, p => some p

/-- The last_sentence_end computed by agent.smart_truncate_text: the
    maximum of the window-qualified rfind positions over the delimiter
    list.  Since a qualified position is positive, the Python test
    last_sentence_end > 0 holds exactly when this value is some. -/
def last_end_pos (maxL : Nat) (tr : List Char) : Option Nat :=
  (sentence_endings.filterMap (ending_pos maxL tr)).foldl option_max none

/-- agent.smart_truncate_text: no-op when the text fits, else cut at the
    rightmost window-qualified sentence delimiter plus one, else at the
    rightmost window-qualified space, else hard cut at max_length. -/
def smart_truncate_text (text : List Char) (max_length : Nat) : List Char :=
  if text.length ≤ max_length then text
  else
    match last_end_pos max_length (text.take max_length) with
    | some p => text.take (p + 1)
    | none =>
      match last_index_of (text.take max_length) ' ' with
      | some sp =>
        if float07_scaled max_length < sp * 2 ^ 53 then text.take sp
        else text.take max_length
      | none => text.take max_length

/-! The completion-response parser (openai_module.get_questions_from_text,
    lines splitting the response into question strings). -/

/-- The list-marker characters stripped by the parser. -/
def markers : List Char := ['-', '*', '•']

/-- Primary per-line cleaning of the parser: strip a leading numbering
    piece when the line starts with a digit and contains a period
    (split on the first period, keep the stripped remainder), then strip
    one leading list-marker character together with surrounding space. -/
def clean_line (line : List Char) : List Char :=
  let c1 :=
    match line with
    | d :: _ =>
      if d.isDigit then
        match split_first '.' line with
        | some (_, post) => py_strip post
        | none => line
      else line
    | [] => line
  match c1 with
  | m :: rest => if m ∈ markers then py_strip rest else c1
  | [] => c1

/-- Fallback per-line cleaning of the parser: keep everything after the
    first period (or the whole line when there is none), strip, remove all
    leading marker characters, strip again. -/
def fallback_clean (q : List Char) : List Char :=
  let t :=
    match split_first '.' q with
    | some (_, post) => post
    | none => q
  py_strip ((py_strip t).dropWhile (fun c => c ∈ markers))

/-- The non-blank stripped lines of the response text. -/
def all_lines (result_text : List Char) : List (List Char) :=
  (split_on_char '\n' result_text).filterMap
    (fun l => let s := py_strip l; if s = [] then none else some s)

/-- The question list of the parser before the final clamp to 5: primary
    cleaning of every non-blank line keeping lines longer than 3
    characters, replaced by the looser fallback pass when the primary pass
    yields fewer than 5 questions. -/
def parse_questions_unclamped (result_text : List Char) : List (List Char) :=
  let lines := all_lines result_text
  let primary := lines.filterMap
    (fun l => let c := clean_line l
              if c ≠ [] ∧ c.length > 3 then some c else none)
  if primary.length < 5 then
    ((lines.filter (fun q => q ≠ [] ∧ q.length > 3)).map fallback_clean).filter
      (fun q => q ≠ [] ∧ q.length > 3)
  else primary

/-- The parsing logic of get_questions_from_text: the unclamped list cut
    to its first 5 entries. -/
def parse_questions (result_text : List Char) : List (List Char) :=
  (parse_questions_unclamped result_text).take 5

/-- Decidable equality for Except values, used to evaluate the model at
    concrete inputs. -/
instance exceptDecEq {ε α : Type} [DecidableEq ε] [DecidableEq α] :
    DecidableEq (Except ε α) := fun a b =>
  match a, b with
  | Except.error x, Except.error y =>
    if h : x = y then Decidable.isTrue (by rw [h])
    else Decidable.isFalse (fun hc => h (Except.error.inj hc))
  | Except.ok x, Except.ok y =>
    if h : x = y then Decidable.isTrue (by rw [h])
    else Decidable.isFalse (fun hc => h (Except.ok.inj hc))
  | Except.error _, Except.ok _ => Decidable.isFalse (fun hc => Except.noConfusion hc)
  | Except.ok _, Except.error _ => Decidable.isFalse (fun hc => Except.noConfusion hc)

/-! Exception model.  Python exception values are modelled by PyExc with a
    structured message payload; the constructor records the runtime class
    (ValueError, requests.exceptions.HTTPError / Timeout / ConnectionError
    / RequestException, or a plain Exception), which is what except
    clauses and the tenacity retry predicate dispatch on. -/

/-- Structured stand-ins for the formatted message strings of the source:
    each constructor corresponds to one f-string, carrying the data
    interpolated into it. -/
inductive ErrMsg where
  | invalidUrl : ErrMsg
  | extractionDynamic : ErrMsg
  | emptyAfterClean : ErrMsg
  | insufficientText (required actual : Nat) : ErrMsg
  | apiKeyMissing : ErrMsg
  | emptyText : ErrMsg
  | noChoices : ErrMsg
  | emptyContent : ErrMsg
  | apiRateLimit : ErrMsg
  | apiConnection : ErrMsg
  | apiTimeout : ErrMsg
  | apiOther : ErrMsg
  | plainUnexpected : ErrMsg
  | unexpectedWrap (m : ErrMsg) : ErrMsg
  | extractWrap (m : ErrMsg) : ErrMsg
  | openaiValueWrap (m : ErrMsg) : ErrMsg
  | openaiWrap (m : ErrMsg) : ErrMsg
  | agentWrap (m : ErrMsg) : ErrMsg
  deriving DecidableEq, Repr

/-- Python exceptions by runtime class.  httpError carries the HTTP
    status code interpolated into its message. -/
inductive PyExc where
  | valueError (m : ErrMsg) : PyExc
  | httpError (status : Nat) : PyExc
  | timeoutExc : PyExc
  | connectionExc : PyExc
  | requestExc : PyExc
  | genericExc (m : ErrMsg) : PyExc
  deriving DecidableEq, Repr

/-- isinstance(e, requests.exceptions.Timeout). -/
def is_timeout : PyExc → Bool
  | .timeoutExc => true
  | _ => false

/-- isinstance(e, requests.exceptions.ConnectionError). -/
def is_connection_error : PyExc → Bool
  | .connectionExc => true
  | _ => false

/-- isinstance(e, requests.exceptions.RequestException): in the requests
    library HTTPError, Timeout and ConnectionError are all subclasses of
    RequestException, so every transport-library exception satisfies this;
    ValueError and plain Exception do not. -/
def is_request_exception : PyExc → Bool
  | .httpError _ => true
  | .timeoutExc => true
  | .connectionExc => true
  | .requestExc => true
  | _ => false

/-- The retry predicate of the fetch_html decorator:
    retry_if_exception_type((Timeout, ConnectionError, RequestException)). -/
def fetch_retryable (e : PyExc) : Bool :=
  is_timeout e || is_connection_error e || is_request_exception e

/-! The tenacity retry engine: stop_after_attempt(fuel), reraise=True.
    attempt k is the k-th call (0-based); the result is paired with the
    number of attempts performed.  When an attempt fails and the error is
    retryable and attempts remain, the call is repeated; otherwise the
    last error is re-raised unchanged. -/

/-- Bounded retry loop modelling the tenacity decorator: the first
    argument of the recursion is the number of attempts still allowed
    (on the last allowed attempt the outcome is returned as is, which
    re-raises the final error unchanged). -/
def retryLoop {ε α : Type} (retryable : ε → Bool) (attempt : Nat → Except ε α) :
    Nat → Nat → Except ε α × Nat
  | 0, k => (attempt k, 1)
  | 1, k => (attempt k, 1)
  | f + 2, k =>
    match attempt k with
    | Except.ok a => (Except.ok a, 1)
    | Except.error e =>
      if retryable e then
        let r := retryLoop retryable attempt (f + 1) (k + 1)
        (r.1, r.2 + 1)
      else (Except.error e, 1)

/-! The resilient fetcher (agent.fetch_html). -/

/-- The parse of a URL by urlparse (an external collaborator): the scheme
    and network-location components it extracts from the raw string. -/
structure Url where
  scheme : String
  netloc : String
  deriving DecidableEq, Repr

/-- agent.validate_url: true exactly when both the scheme and the netloc
    are non-empty (all([result.scheme, result.netloc])). -/
def validate_url (u : Url) : Bool :=
  !(u.scheme == "") && !(u.netloc == "")

/-- Outcome of one requests.get call, supplied by the transport oracle:
    either a response with its final status code and body, or a raised
    transport exception (Timeout, ConnectionError, or another
    RequestException). -/
inductive HttpAttempt where
  | resp (status : Nat) (body : List Char) : HttpAttempt
  | timeoutT : HttpAttempt
  | connErrT : HttpAttempt
  | otherT : HttpAttempt
  deriving DecidableEq, Repr

/-- One attempt of agent.fetch_html (the decorated function body):
    ValueError on an invalid URL; raise_for_status turns a 4xx/5xx final
    status into an HTTPError re-raised with the status in its message;
    transport exceptions are re-raised with the same class. -/
def fetch_html_attempt (u : Url) (o : HttpAttempt) : Except PyExc (List Char) :=
  if !validate_url u then Except.error (PyExc.valueError ErrMsg.invalidUrl)
  else
    match o with
    | HttpAttempt.resp s body =>
      if 400 ≤ s ∧ s < 600 then Except.error (PyExc.httpError s) else Except.ok body
    | HttpAttempt.timeoutT => Except.error PyExc.timeoutExc
    | HttpAttempt.connErrT => Except.error PyExc.connectionExc
    | HttpAttempt.otherT => Except.error PyExc.requestExc

/-- agent.fetch_html with its retry decorator: up to 3 attempts, retrying
    on the fetch_retryable classes, re-raising the last error; the second
    component is the number of attempts performed. -/
def fetch_html (u : Url) (net : Nat → HttpAttempt) : Except PyExc (List Char) × Nat :=
  retryLoop fetch_retryable (fun k => fetch_html_attempt u (net k)) 3 0

/-! The question generator (openai_module.get_questions_from_text). -/

/-- Outcome of one chat.completions.create call, supplied by the client
    oracle: a raised client exception, a response without choices, or the
    message content of the first choice. -/
inductive ApiOutcome where
  | rateLimit : ApiOutcome
  | connFail : ApiOutcome
  | timeoutFail : ApiOutcome
  | apiFail : ApiOutcome
  | plainFail : ApiOutcome
  | noChoices : ApiOutcome
  | content (c : List Char) : ApiOutcome
  deriving DecidableEq, Repr

/-- One attempt of openai_module.get_questions_from_text (the decorated
    function body).  cfg is whether the module-level client was built
    (the API key was configured).  The two precondition ValueErrors are
    raised before the try block; the ValueErrors raised inside the try
    block (no choices, empty content) and the client exceptions are all
    caught by the except chain and re-raised as plain Exception values
    with wrapped messages. -/
def get_questions_attempt (cfg : Bool) (text : List Char) (o : ApiOutcome) :
    Except PyExc (List (List Char)) :=
  if !cfg then Except.error (PyExc.valueError ErrMsg.apiKeyMissing)
  else if text = [] ∨ py_strip text = [] then
    Except.error (PyExc.valueError ErrMsg.emptyText)
  else
    match o with
    | ApiOutcome.rateLimit => Except.error (PyExc.genericExc ErrMsg.apiRateLimit)
    | ApiOutcome.connFail => Except.error (PyExc.genericExc ErrMsg.apiConnection)
    | ApiOutcome.timeoutFail => Except.error (PyExc.genericExc ErrMsg.apiTimeout)
    | ApiOutcome.apiFail => Except.error (PyExc.genericExc ErrMsg.apiOther)
    | ApiOutcome.plainFail => Except.error (PyExc.genericExc ErrMsg.plainUnexpected)
    | ApiOutcome.noChoices =>
      Except.error (PyExc.genericExc (ErrMsg.unexpectedWrap ErrMsg.noChoices))
    | ApiOutcome.content c =>
      if c = [] ∨ py_strip c = [] then
        Except.error (PyExc.genericExc (ErrMsg.unexpectedWrap ErrMsg.emptyContent))
      else Except.ok (parse_questions (py_strip c))

/-- openai_module.get_questions_from_text with its retry decorator:
    retry_if_exception_type((Exception,)) makes every exception retryable;
    up to 3 attempts, the last error re-raised unchanged; the second
    component is the number of attempts performed. -/
def get_questions_from_text (cfg : Bool) (text : List Char) (api : Nat → ApiOutcome) :
    Except PyExc (List (List Char)) × Nat :=
  retryLoop (fun _ => true) (fun k => get_questions_attempt cfg text (api k)) 3 0

/-! The text extractor (agent.extract_text_from_url). -/

/-- The BeautifulSoup view of a parsed HTML document (an external
    collaborator): the per-element texts collected from the content tags
    in scan order, the body text when a body element exists, and the
    whole-document text; each already space-joined and stripped by
    get_text(separator, strip). -/
structure SoupView where
  contentParts : List (List Char)
  bodyText : Option (List Char)
  docText : List Char

/-- The ellipsis marker appended by the extraction-stage clamp. -/
def ellipsis : List Char := ['.', '.', '.']

/-- The length clamp at the end of agent.extract_text_from_url: texts
    longer than MAX_TEXT_LENGTH are cut to that length, the cut backed
    off to the last space of the prefix when one exists
    (rsplit-with-maxsplit-1, first piece), and the ellipsis appended. -/
def clamp_extracted (cleaned : List Char) : List Char :=
  if cleaned.length > MAX_TEXT_LENGTH then
    (match last_index_of (cleaned.take MAX_TEXT_LENGTH) ' ' with
     | some sp => (cleaned.take MAX_TEXT_LENGTH).take sp
     | none => cleaned.take MAX_TEXT_LENGTH) ++ ellipsis
  else cleaned

/-- agent.extract_text_from_url: fetch the page, then collect text from
    the soup view with the body and whole-document fallbacks, join the
    parts with single spaces, check non-emptiness before and after
    cleaning, and clamp the length. -/
def extract_text_from_url (u : Url) (net : Nat → HttpAttempt)
    (soup : List Char → SoupView) : Except PyExc (List Char) :=
  match (fetch_html u net).1 with
  | Except.error e => Except.error e
  | Except.ok html =>
    let view := soup html
    let parts0 := view.contentParts.filter
      (fun t => t ≠ [] ∧ (py_strip t).length > 0)
    let parts1 :=
      if parts0 = [] then
        match view.bodyText with
        | some bt => if bt ≠ [] ∧ (py_strip bt).length > 0 then [bt] else []
        | none => []
      else parts0
    let parts2 :=
      if parts1 = [] then
        if view.docText ≠ [] ∧ (py_strip view.docText).length > 0 then
          [view.docText]
        else []
      else parts1
    let full_text := (parts2.intersperse [' ']).flatten
    if full_text = [] ∨ (py_strip full_text).length = 0 then
      Except.error (PyExc.valueError ErrMsg.extractionDynamic)
    else
      let cleaned := clean_text full_text
      if cleaned = [] ∨ (py_strip cleaned).length = 0 then
        Except.error (PyExc.valueError ErrMsg.emptyAfterClean)
      else Except.ok (clamp_extracted cleaned)

/-! The pipeline orchestrator (agent.generate_questions_from_url) and the
    REST endpoint mapping (main.generate_questions). -/

/-- agent.generate_questions_from_url.  The inner except clauses around
    the extraction step wrap a ValueError and re-raise any
    RequestException (including its Timeout, ConnectionError and
    HTTPError subclasses) as a new plain RequestException; the
    insufficient-text check raises a ValueError carrying the minimum and
    the observed stripped length; the generation step wraps a ValueError
    and turns any other exception into a plain Exception, which the outer
    except chain wraps once more. -/
def generate_questions_from_url (u : Url) (net : Nat → HttpAttempt)
    (soup : List Char → SoupView) (cfg : Bool) (api : Nat → ApiOutcome) :
    Except PyExc (List (List Char)) :=
  match extract_text_from_url u net soup with
  | Except.error (PyExc.valueError m) =>
    Except.error (PyExc.valueError (ErrMsg.extractWrap m))
  | Except.error (PyExc.httpError _) => Except.error PyExc.requestExc
  | Except.error PyExc.timeoutExc => Except.error PyExc.requestExc
  | Except.error PyExc.connectionExc => Except.error PyExc.requestExc
  | Except.error PyExc.requestExc => Except.error PyExc.requestExc
  | Except.error (PyExc.genericExc m) =>
    Except.error (PyExc.genericExc (ErrMsg.agentWrap m))
  | Except.ok text =>
    if text = [] ∨ (py_strip text).length < MIN_TEXT_LENGTH then
      Except.error (PyExc.valueError
        (ErrMsg.insufficientText MIN_TEXT_LENGTH (py_strip text).length))
    else
      let text2 :=
        if text.length > MAX_TEXT_LENGTH_FOR_OPENAI then
          smart_truncate_text text MAX_TEXT_LENGTH_FOR_OPENAI
        else text
      match (get_questions_from_text cfg text2 api).1 with
      | Except.ok qs => Except.ok qs
      | Except.error (PyExc.valueError m) =>
        Except.error (PyExc.valueError (ErrMsg.openaiValueWrap m))
      | Except.error (PyExc.genericExc m) =>
        Except.error (PyExc.genericExc (ErrMsg.agentWrap (ErrMsg.openaiWrap m)))
      | Except.error _ =>
        Except.error (PyExc.genericExc (ErrMsg.agentWrap
          (ErrMsg.openaiWrap ErrMsg.plainUnexpected)))

/-- main.generate_questions: runs the pipeline and maps the escaping
    exception class to an HTTP status through the except chain of
    main.py (ValueError 400, HTTPError 400, Timeout 408, ConnectionError
    503, RequestException 503, Exception 500); an empty question list is
    a 500, and the returned list is cut to 5 entries. -/
def generate_questions_endpoint (u : Url) (net : Nat → HttpAttempt)
    (soup : List Char → SoupView) (cfg : Bool) (api : Nat → ApiOutcome) :
    Except Nat (List (List Char)) :=
  match generate_questions_from_url u net soup cfg api with
  | Except.ok qs => if qs = [] then Except.error 500 else Except.ok (qs.take 5)
  | Except.error (PyExc.valueError _) => Except.error 400
  | Except.error (PyExc.httpError _) => Except.error 400
  | Except.error PyExc.timeoutExc => Except.error 408
  | Except.error PyExc.connectionExc => Except.error 503
  | Except.error PyExc.requestExc => Except.error 503
  | Except.error (PyExc.genericExc _) => Except.error 500

/-! Concrete inputs used to evaluate the model at specific points. -/

/-- A well-formed URL as parsed by urlparse. -/
def u0 : Url := { scheme := "http", netloc := "example.com" }

/-- Transport oracle: every GET returns status 404. -/
def net404 : Nat → HttpAttempt := fun _ => HttpAttempt.resp 404 []

/-- Transport oracle: every GET returns status 304 with body b. -/
def net304 : Nat → HttpAttempt := fun _ => HttpAttempt.resp 304 ('b' :: [])

/-- Transport oracle: every GET times out. -/
def netTimeout : Nat → HttpAttempt := fun _ => HttpAttempt.timeoutT

/-- Transport oracle: every GET succeeds with an empty body. -/
def netOk : Nat → HttpAttempt := fun _ => HttpAttempt.resp 200 []

/-- Soup oracle: a document with no text anywhere. -/
def soupEmpty : List Char → SoupView :=
  fun _ => { contentParts := [], bodyText := none, docText := [] }

/-- Soup oracle: a single content element holding 30 characters. -/
def soup30 : List Char → SoupView :=
  fun _ => { contentParts := [List.replicate 30 'a'], bodyText := none, docText := [] }

/-- Client oracle: every completion call raises a plain exception. -/
def apiFail : Nat → ApiOutcome := fun _ => ApiOutcome.plainFail

/-- A 14-character text with a sentence delimiter at index 10. -/
def t0 : List Char := ("aaaaaaaaaa.xyz").toList

/-- A 2-character text, shorter than any cap used with it. -/
def t1 : List Char := ("hi").toList

/-- A 91-character text whose only sentence delimiter sits at index 63,
    which is exactly 0.7 times the cap 90. -/
def t90 : List Char := List.replicate 63 'a' ++ '.' :: List.replicate 27 'a'

/-- A cleaned text of 10001 identical letters with no space anywhere. -/
def c0 : List Char := List.replicate 10001 'a'

/-- A response text whose parse yields a single question. -/
def rt0 : List Char := ("Only one question here?").toList

/-- The truncation contract for an over-long text, with the search window
    the positions strictly above the double Python computes for 0.7 times
    the cap: exactly one of the three outcomes happens — a cut just after
    the rightmost window delimiter, a cut at the rightmost window space
    when the window holds no delimiter, or a hard cut at the cap when it
    holds neither — and the result never exceeds the cap. -/
def truncate_body (text : List Char) (maxL : Nat) : Prop :=
  (smart_truncate_text text maxL).length ≤ maxL ∧
  ((∃ p c, float07_scaled maxL < p * 2 ^ 53 ∧ (text.take maxL).get? p = some c ∧
      c ∈ sentence_endings ∧
      (∀ q d, float07_scaled maxL < q * 2 ^ 53 → (text.take maxL).get? q = some d →
        d ∈ sentence_endings → q ≤ p) ∧
      smart_truncate_text text maxL = text.take (p + 1))
   ∨ ((∀ q d, float07_scaled maxL < q * 2 ^ 53 → (text.take maxL).get? q = some d →
        d ∉ sentence_endings) ∧
      (∃ sp, float07_scaled maxL < sp * 2 ^ 53 ∧ (text.take maxL).get? sp = some ' ' ∧
        (∀ q, float07_scaled maxL < q * 2 ^ 53 → (text.take maxL).get? q = some ' ' →
          q ≤ sp) ∧
        smart_truncate_text text maxL = text.take sp))
   ∨ ((∀ q d, float07_scaled maxL < q * 2 ^ 53 → (text.take maxL).get? q = some d →
        d ∉ sentence_endings) ∧
      (∀ q, float07_scaled maxL < q * 2 ^ 53 → (text.take maxL).get? q ≠ some ' ') ∧
      smart_truncate_text text maxL = text.take maxL))

/-- The contract of the extraction-stage length clamp for an over-long
    cleaned text: the 10000-character cut backs off to the rightmost
    space of the prefix when the prefix holds one (otherwise the whole
    prefix is kept), the ellipsis is appended, and the result is at most
    10003 characters. -/
def clamp_body (cleaned : List Char) : Prop :=
  ((∃ sp, (cleaned.take MAX_TEXT_LENGTH).get? sp = some ' ' ∧
      (∀ q, sp < q → (cleaned.take MAX_TEXT_LENGTH).get? q ≠ some ' ') ∧
      clamp_extracted cleaned = cleaned.take sp ++ ellipsis)
   ∨ ((∀ q, (cleaned.take MAX_TEXT_LENGTH).get? q ≠ some ' ') ∧
      clamp_extracted cleaned = cleaned.take MAX_TEXT_LENGTH ++ ellipsis))
  ∧ (clamp_extracted cleaned).length ≤ MAX_TEXT_LENGTH + 3

/-! Helper lemmas: the rfind model, the running maximum of the truncator
    loop, and the shape of the truncator result. -/

theorem lio_get {c : Char} :
    ∀ {l : List Char} {p : Nat}, last_index_of l c = some p → l.get? p = some c := by
  intro l
  induction l with
  | nil => intro p h; simp [last_index_of] at h
  | cons a rest ih =>
    intro p h
    unfold last_index_of at h
    cases hr : last_index_of rest c with
    | some i =>
      rw [hr] at h
      simp only [Option.some.injEq] at h
      subst h
      exact ih hr
    | none =>
      rw [hr] at h
      by_cases hac : a = c
      · simp [hac] at h
        subst h
        simp [hac]
      · simp [hac] at h

theorem lio_none {c : Char} :
    ∀ {l : List Char}, last_index_of l c = none → ∀ q, l.get? q ≠ some c := by
  intro l
  induction l with
  | nil => intro _ q; simp
  | cons a rest ih =>
    intro h q
    unfold last_index_of at h
    cases hr : last_index_of rest c with
    | some i => rw [hr] at h; simp at h
    | none =>
      rw [hr] at h
      by_cases hac : a = c
      · simp [hac] at h
      · cases q with
        | zero => simp [hac]
        | succ q => exact ih hr q

theorem lio_last {c : Char} :
    ∀ {l : List Char} {p : Nat}, last_index_of l c = some p →
      ∀ q, p < q → l.get? q ≠ some c := by
  intro l
  induction l with
  | nil => intro p h; simp [last_index_of] at h
  | cons a rest ih =>
    intro p h q hq
    unfold last_index_of at h
    cases hr : last_index_of rest c with
    | some i =>
      rw [hr] at h
      simp only [Option.some.injEq] at h
      subst h
      cases q with
      | zero => omega
      | succ q => exact ih hr q (by omega)
    | none =>
      rw [hr] at h
      by_cases hac : a = c
      · simp [hac] at h
        subst h
        cases q with
        | zero => omega
        | succ q => exact lio_none hr q
      · simp [hac] at h

theorem lio_ge {c : Char} :
    ∀ {l : List Char} {q : Nat}, l.get? q = some c →
      ∃ p, last_index_of l c = some p ∧ q ≤ p := by
  intro l
  induction l with
  | nil => intro q h; simp at h
  | cons a rest ih =>
    intro q h
    cases q with
    | zero =>
      simp at h
      cases hr : last_index_of rest c with
      | some i => exact ⟨i + 1, by unfold last_index_of; rw [hr], by omega⟩
      | none => exact ⟨0, by unfold last_index_of; rw [hr]; simp [h], by omega⟩
    | succ q =>
      have h' : rest.get? q = some c := h
      obtain ⟨p, hp, hqp⟩ := ih h'
      exact ⟨p + 1, by unfold last_index_of; rw [hp], by omega⟩

theorem omax_some (xs : List Nat) :
    ∀ b : Nat, ∃ m, xs.foldl option_max (some b) = some m ∧ b ≤ m ∧
      (m = b ∨ m ∈ xs) ∧ ∀ x ∈ xs, x ≤ m := by
  induction xs with
  | nil => intro b; exact ⟨b, rfl, Nat.le_refl b, Or.inl rfl, by simp⟩
  | cons x rest ih =>
    intro b
    obtain ⟨m, heq, hle, hmem, hall⟩ := ih (max b x)
    refine ⟨m, ?_, ?_, ?_, ?_⟩
    · simpa [option_max] using heq
    · exact le_trans (le_max_left b x) hle
    · rcases hmem with h | h
      · rcases max_choice b x with hbx | hbx
        · exact Or.inl (h.trans hbx)
        · exact Or.inr (by simp [h, hbx])
      · exact Or.inr (by simp [h])
    · intro y hy
      rcases List.mem_cons.mp hy with h | h
      · rw [h]; exact le_trans (le_max_right b x) hle
      · exact hall y h

theorem last_end_pos_none {maxL : Nat} {tr : List Char}
    (h : last_end_pos maxL tr = none) :
    ∀ c ∈ sentence_endings, ending_pos maxL tr c = none := by
  have hnil : sentence_endings.filterMap (ending_pos maxL tr) = [] := by
    cases hx : sentence_endings.filterMap (ending_pos maxL tr) with
    | nil => rfl
    | cons x rest =>
      exfalso
      unfold last_end_pos at h
      rw [hx] at h
      obtain ⟨m, heq, -, -, -⟩ := omax_some rest x
      rw [List.foldl_cons] at h
      simp only [option_max] at h
      rw [heq] at h
      exact Option.noConfusion h
  exact List.filterMap_eq_nil_iff.mp hnil

theorem last_end_pos_some {maxL : Nat} {tr : List Char} {p : Nat}
    (h : last_end_pos maxL tr = some p) :
    (∃ c ∈ sentence_endings, ending_pos maxL tr c = some p) ∧
      ∀ c q, c ∈ sentence_endings → ending_pos maxL tr c = some q → q ≤ p := by
  unfold last_end_pos at h
  cases hx : sentence_endings.filterMap (ending_pos maxL tr) with
  | nil => rw [hx] at h; simp at h
  | cons x rest =>
    rw [hx] at h
    obtain ⟨m, heq, hle, hmem, hall⟩ := omax_some rest x
    rw [List.foldl_cons] at h
    simp only [option_max] at h
    rw [heq] at h
    simp only [Option.some.injEq] at h
    have hp_mem : p ∈ sentence_endings.filterMap (ending_pos maxL tr) := by
      rw [hx, ← h]
      rcases hmem with hm | hm
      · rw [hm]; exact List.mem_cons_self x rest
      · exact List.mem_cons_of_mem x hm
    constructor
    · obtain ⟨c, hc, hcp⟩ := List.mem_filterMap.mp hp_mem
      exact ⟨c, hc, hcp⟩
    · intro c q hc hcq
      have hq_mem : q ∈ sentence_endings.filterMap (ending_pos maxL tr) :=
        List.mem_filterMap.mpr ⟨c, hc, hcq⟩
      rw [hx] at hq_mem
      rcases List.mem_cons.mp hq_mem with hq | hq
      · rw [hq, ← h]; exact hle
      · rw [← h]; exact hall q hq

theorem window_mono {maxL q p : Nat} (h : float07_scaled maxL < q * 2 ^ 53)
    (hqp : q ≤ p) : float07_scaled maxL < p * 2 ^ 53 :=
  lt_of_lt_of_le h (Nat.mul_le_mul_right _ hqp)

theorem ending_pos_eq_some {maxL : Nat} {tr : List Char} {c : Char} {p : Nat} :
    ending_pos maxL tr c = some p ↔
      last_index_of tr c = some p ∧ float07_scaled maxL < p * 2 ^ 53 := by
  constructor
  · intro h
    unfold ending_pos at h
    cases hr : last_index_of tr c with
    | some i =>
      rw [hr] at h
      dsimp only at h
      by_cases hw : float07_scaled maxL < i * 2 ^ 53
      · rw [if_pos hw] at h
        simp only [Option.some.injEq] at h
        subst h
        exact ⟨rfl, hw⟩
      · rw [if_neg hw] at h
        exact absurd h (by simp)
    | none =>
      rw [hr] at h
      exact absurd h (by simp)
  · intro hb
    unfold ending_pos
    rw [hb.1]
    dsimp only
    rw [if_pos hb.2]

theorem get_some_lt {l : List Char} {q : Nat} {c : Char}
    (h : l.get? q = some c) : q < l.length :=
  (List.get?_eq_some.mp h).1

theorem smart_truncate_shape (t : List Char) (m : Nat) :
    ∃ k, k ≤ m ∧ smart_truncate_text t m = t.take k := by
  unfold smart_truncate_text
  by_cases hle : t.length ≤ m
  · exact ⟨m, Nat.le_refl m, by simp [hle, List.take_of_length_le hle]⟩
  · simp only [hle, if_false]
    have hlen : (t.take m).length = m := by
      rw [List.length_take]
      omega
    cases h1 : last_end_pos m (t.take m) with
    | some p =>
      obtain ⟨⟨c, _, hcp⟩, -⟩ := last_end_pos_some h1
      obtain ⟨hlio, -⟩ := ending_pos_eq_some.mp hcp
      have hp : p < m := hlen ▸ get_some_lt (lio_get hlio)
      exact ⟨p + 1, by omega, rfl⟩
    | none =>
      cases h2 : last_index_of (t.take m) ' ' with
      | some sp =>
        by_cases hw : float07_scaled m < sp * 2 ^ 53
        · have hsp : sp < m := hlen ▸ get_some_lt (lio_get h2)
          exact ⟨sp, by omega, by dsimp only; rw [if_pos hw]⟩
        · exact ⟨m, Nat.le_refl m, by dsimp only; rw [if_neg hw]⟩
      | none => exact ⟨m, Nat.le_refl m, rfl⟩

theorem smart_truncate_length_le (t : List Char) (m : Nat) :
    (smart_truncate_text t m).length ≤ m := by
  obtain ⟨k, hk, heq⟩ := smart_truncate_shape t m
  rw [heq, List.length_take]
  omega

theorem lio_not_mem {c : Char} :
    ∀ {l : List Char}, c ∉ l → last_index_of l c = none := by
  intro l
  induction l with
  | nil => intro _; rfl
  | cons a rest ih =>
    intro h
    have hrest : c ∉ rest := fun hm => h (List.mem_cons_of_mem a hm)
    have hac : ¬a = c := fun hac => h (by rw [hac]; exact List.mem_cons_self c rest)
    unfold last_index_of
    rw [ih hrest]
    dsimp only
    rw [if_neg hac]

theorem smart_truncate_noop {t : List Char} {m : Nat} (h : t.length ≤ m) :
    smart_truncate_text t m = t := by
  unfold smart_truncate_text
  rw [if_pos h]

/-- Three attempts of the retry loop when every attempt fails and the
    first two failures are retryable: the loop performs 3 attempts and
    returns the third failure unchanged. -/
theorem retry3_all_error {ε α : Type} (retryable : ε → Bool) (attempt : Nat → Except ε α)
    (e0 e1 e2 : ε)
    (h0 : attempt 0 = Except.error e0) (h1 : attempt 1 = Except.error e1)
    (h2 : attempt 2 = Except.error e2)
    (hr0 : retryable e0 = true) (hr1 : retryable e1 = true) :
    retryLoop retryable attempt 3 0 = (Except.error e2, 3) := by
  show (match attempt 0 with
    | Except.ok a => (Except.ok a, 1)
    | Except.error e =>
      if retryable e then
        let r := retryLoop retryable attempt 2 1
        (r.1, r.2 + 1)
      else (Except.error e, 1)) = (Except.error e2, 3)
  rw [h0]
  dsimp only
  rw [if_pos hr0]
  show (((match attempt 1 with
    | Except.ok a => (Except.ok a, 1)
    | Except.error e =>
      if retryable e then
        let r := retryLoop retryable attempt 1 2
        (r.1, r.2 + 1)
      else (Except.error e, 1)) : Except ε α × Nat).1,
    ((match attempt 1 with
    | Except.ok a => (Except.ok a, 1)
    | Except.error e =>
      if retryable e then
        let r := retryLoop retryable attempt 1 2
        (r.1, r.2 + 1)
      else (Except.error e, 1)) : Except ε α × Nat).2 + 1) = (Except.error e2, 3)
  rw [h1]
  dsimp only
  rw [if_pos hr1]
  show ((((attempt 2, 1) : Except ε α × Nat).1,
    ((attempt 2, 1) : Except ε α × Nat).2 + 1 + 1) : Except ε α × Nat) = (Except.error e2, 3)
  rw [h2]

/-! The claims. -/

/-- C5 (corrected): the claim as stated — the window is the positions at
    or after 0.7 times the cap — is false, and so is the strict
    exact-arithmetic reading, because the code compares the integer
    position with the double max_length * 0.7.  At cap 10 that double is
    exactly 7.0, so the only delimiter, at index 7 = 0.7 times 10, fails
    the strict float test and the code hard-cuts at 10 instead of cutting
    just after it; at cap 90 the double is below 63 (90 * 0.7 rounds to
    62.99999999999999), so a delimiter at index 63 = 0.7 times 90 passes
    the test and the code does cut just after it. -/
theorem claim_C5_counterexample :
    (("aaaaaaa.aaa").toList.length = 11 ∧
     (("aaaaaaa.aaa").toList.take 10).get? 7 = some '.' ∧
     '.' ∈ sentence_endings ∧
     10 * 7 ≥ 7 * 10 ∧
     (∀ q, q < 10 → 10 * q ≥ 7 * 10 →
       ∀ d, (("aaaaaaa.aaa").toList.take 10).get? q = some d →
         d ∈ sentence_endings → q = 7) ∧
     smart_truncate_text ("aaaaaaa.aaa").toList 10 ≠
       ("aaaaaaa.aaa").toList.take (7 + 1) ∧
     smart_truncate_text ("aaaaaaa.aaa").toList 10 =
       ("aaaaaaa.aaa").toList.take 10) ∧
    (t90.length = 91 ∧
     (t90.take 90).get? 63 = some '.' ∧
     10 * 63 = 7 * 90 ∧
     smart_truncate_text t90 90 = t90.take (63 + 1)) := by
  decide

/-- C5 (amended): for an over-long text the truncator takes the length
    max_length prefix and searches it only at positions strictly above
    the binary64 double Python computes for max_length * 0.7 (modelled
    exactly by float07_scaled; the double can equal the exact product, as
    at caps 10 and 8000, or fall just below it, as at cap 90); it cuts
    the original text just after the rightmost such sentence delimiter,
    failing that at the rightmost such space, failing that hard at
    max_length; exactly one of the three outcomes occurs, the result
    never exceeds max_length, and a text that fits is returned
    unchanged. -/
theorem claim_C5 (text : List Char) (maxL : Nat) :
    (text.length ≤ maxL → smart_truncate_text text maxL = text) ∧
    (maxL < text.length → truncate_body text maxL) := by
  constructor
  · intro h
    exact smart_truncate_noop h
  · intro hgt
    have hnle : ¬text.length ≤ maxL := by omega
    have hlen : (text.take maxL).length = maxL := by
      rw [List.length_take]
      omega
    refine ⟨smart_truncate_length_le text maxL, ?_⟩
    cases h1 : last_end_pos maxL (text.take maxL) with
    | some p =>
      left
      obtain ⟨⟨c, hc, hcp⟩, hmax⟩ := last_end_pos_some h1
      obtain ⟨hlio, hwin⟩ := ending_pos_eq_some.mp hcp
      refine ⟨p, c, hwin, lio_get hlio, hc, ?_, ?_⟩
      · intro q d hqw hqd hd
        obtain ⟨pq, hpq, hqpq⟩ := lio_ge hqd
        have hwq := window_mono hqw hqpq
        have := hmax d pq hd (ending_pos_eq_some.mpr ⟨hpq, hwq⟩)
        omega
      · unfold smart_truncate_text
        rw [if_neg hnle, h1]
    | none =>
      have hnodelim : ∀ q d, float07_scaled maxL < q * 2 ^ 53 →
          (text.take maxL).get? q = some d → d ∉ sentence_endings := by
        intro q d hqw hqd hd
        obtain ⟨pq, hpq, hqpq⟩ := lio_ge hqd
        have hwq := window_mono hqw hqpq
        have hpos : ending_pos maxL (text.take maxL) d = some pq :=
          ending_pos_eq_some.mpr ⟨hpq, hwq⟩
        rw [last_end_pos_none h1 d hd] at hpos
        exact Option.noConfusion hpos
      cases h2 : last_index_of (text.take maxL) ' ' with
      | some sp =>
        by_cases hw : float07_scaled maxL < sp * 2 ^ 53
        · right
          left
          refine ⟨hnodelim, sp, hw, lio_get h2, ?_, ?_⟩
          · intro q hqw hq
            by_contra hcq
            push_neg at hcq
            exact lio_last h2 q hcq hq
          · unfold smart_truncate_text
            rw [if_neg hnle, h1, h2]
            dsimp only
            rw [if_pos hw]
        · right
          right
          refine ⟨hnodelim, ?_, ?_⟩
          · intro q hqw hq
            have hqsp : q ≤ sp := by
              by_contra hcq
              push_neg at hcq
              exact lio_last h2 q hcq hq
            exact hw (window_mono hqw hqsp)
          · unfold smart_truncate_text
            rw [if_neg hnle, h1, h2]
            dsimp only
            rw [if_neg hw]
      | none =>
        right
        right
        refine ⟨hnodelim, ?_, ?_⟩
        · intro q _
          exact lio_none h2 q
        · unfold smart_truncate_text
          rw [if_neg hnle, h1, h2]

/-- C5 witness: the amended statement evaluated at a 14-character text
    with cap 12 (the delimiter at index 10 is strictly inside the
    window), and the no-op case at a 2-character text with cap 12. -/
theorem claim_C5_witness :
    (12 < t0.length ∧ truncate_body t0 12) ∧
    (t1.length ≤ 12 ∧ smart_truncate_text t1 12 = t1) :=
  ⟨⟨by decide, (claim_C5 t0 12).2 (by decide)⟩,
   ⟨by decide, (claim_C5 t1 12).1 (by decide)⟩⟩

/-- C9 (confirmed): the truncator is idempotent — re-truncating its
    result with the same cap returns it unchanged, because the result
    never exceeds the cap and a fitting text is a no-op. -/
theorem claim_C9 (text : List Char) (cap : Nat) :
    smart_truncate_text (smart_truncate_text text cap) cap =
      smart_truncate_text text cap :=
  smart_truncate_noop (smart_truncate_length_le text cap)

/-- C10 (confirmed): for every text and positive cap the truncator
    returns a prefix of its input — some initial segment, never altered
    or reordered characters. -/
theorem claim_C10 (text : List Char) (maxL : Nat) (h : 0 < maxL) :
    ∃ n, smart_truncate_text text maxL = List.take n text := by
  obtain ⟨k, -, heq⟩ := smart_truncate_shape text maxL
  exact ⟨k, heq⟩

/-- C10 witness: the prefix property evaluated at a 2-character text with
    the default cap 8000. -/
theorem claim_C10_witness :
    0 < 8000 ∧ ∃ n, smart_truncate_text t1 8000 = List.take n t1 :=
  ⟨by decide, claim_C10 t1 8000 (by decide)⟩

/-- C4 (confirmed): on the response text with numbered, hyphen, asterisk
    and bullet lines, the parsing logic returns exactly the five cleaned
    questions in order. -/
theorem claim_C4 :
    parse_questions ("1. What is X?\n2. Why Y?\n- How Z?\n* When?\n• Who?").toList =
      [("What is X?").toList, ("Why Y?").toList, ("How Z?").toList,
       ("When?").toList, ("Who?").toList] := by
  decide

/-- C7 (confirmed): for every response text the returned question list is
    the first 5 entries of the parsed list, hence has length at most 5,
    and when fewer than 5 questions are parsed the shorter list is
    returned exactly as parsed — never padded. -/
theorem claim_C7 (rt : List Char) :
    parse_questions rt = (parse_questions_unclamped rt).take 5 ∧
    (parse_questions rt).length ≤ 5 ∧
    ((parse_questions_unclamped rt).length < 5 →
      parse_questions rt = parse_questions_unclamped rt) := by
  refine ⟨rfl, ?_, ?_⟩
  · unfold parse_questions
    exact List.length_take_le 5 (parse_questions_unclamped rt)
  · intro h
    unfold parse_questions
    exact List.take_of_length_le (by omega)

/-- C7 witness: evaluated at a response text parsing to one question —
    the result is the one-element list, not padded. -/
theorem claim_C7_witness :
    (parse_questions_unclamped rt0).length < 5 ∧
    parse_questions rt0 = parse_questions_unclamped rt0 :=
  ⟨by decide, (claim_C7 rt0).2.2 (by decide)⟩

/-- C1 (corrected): the claim as stated is false in two ways.  A GET
    returning 404 on every attempt makes fetch_html perform 3 attempts,
    not 1: the decorator retries on RequestException and HTTPError is a
    RequestException subclass, so HTTP-status failures are retried.  And
    a GET returning the non-2xx status 304 raises nothing at all, since
    raise_for_status only raises for 4xx/5xx. -/
theorem claim_C1_counterexample :
    fetch_html u0 net404 = (Except.error (PyExc.httpError 404), 3) ∧ (3 ≠ 1) ∧
    fetch_html u0 net304 = (Except.ok ('b' :: []), 1) := by
  refine ⟨by rfl, by decide, by rfl⟩

/-- C1 (amended): for a valid URL, a GET returning a 4xx/5xx status on
    every attempt makes fetch_html raise an HTTP-Status failure carrying
    the status code after 3 attempts — status failures are retried
    exactly like transport failures, because HTTPError subclasses
    RequestException; and when every attempt fails at transport level the
    loop performs 3 attempts and re-raises the last failure unchanged. -/
theorem claim_C1 (u : Url) (net : Nat → HttpAttempt) (hu : validate_url u = true) :
    (∀ s body, 400 ≤ s → s < 600 → (∀ k, net k = HttpAttempt.resp s body) →
      fetch_html u net = (Except.error (PyExc.httpError s), 3)) ∧
    ((∀ k, net k = HttpAttempt.timeoutT ∨ net k = HttpAttempt.connErrT ∨
        net k = HttpAttempt.otherT) →
      ∃ e, fetch_html u net = (Except.error e, 3) ∧
        fetch_html_attempt u (net 2) = Except.error e ∧
        is_request_exception e = true) := by
  constructor
  · intro s body h4 h6 hnet
    have ha : ∀ k, fetch_html_attempt u (net k) = Except.error (PyExc.httpError s) := by
      intro k
      rw [hnet k]
      unfold fetch_html_attempt
      rw [hu]
      rw [if_neg (by simp)]
      dsimp only
      rw [if_pos ⟨h4, h6⟩]
    unfold fetch_html
    exact retry3_all_error _ _ _ _ _ (ha 0) (ha 1) (ha 2) rfl rfl
  · intro htr
    have ha : ∀ k, ∃ e, fetch_html_attempt u (net k) = Except.error e ∧
        is_request_exception e = true := by
      intro k
      rcases htr k with h | h | h
      · refine ⟨PyExc.timeoutExc, ?_, rfl⟩
        rw [h]
        unfold fetch_html_attempt
        rw [hu, if_neg (by simp)]
      · refine ⟨PyExc.connectionExc, ?_, rfl⟩
        rw [h]
        unfold fetch_html_attempt
        rw [hu, if_neg (by simp)]
      · refine ⟨PyExc.requestExc, ?_, rfl⟩
        rw [h]
        unfold fetch_html_attempt
        rw [hu, if_neg (by simp)]
    obtain ⟨e0, h0, hq0⟩ := ha 0
    obtain ⟨e1, h1, hq1⟩ := ha 1
    obtain ⟨e2, h2, hq2⟩ := ha 2
    have hr0 : fetch_retryable e0 = true := by
      unfold fetch_retryable
      rw [hq0]
      simp
    have hr1 : fetch_retryable e1 = true := by
      unfold fetch_retryable
      rw [hq1]
      simp
    refine ⟨e2, ?_, h2, hq2⟩
    unfold fetch_html
    exact retry3_all_error _ _ e0 e1 e2 h0 h1 h2 hr0 hr1

/-- C1 witness: the amended statement evaluated on a valid URL with a
    transport that always returns 404, and one that always times out. -/
theorem claim_C1_witness :
    validate_url u0 = true ∧
    fetch_html u0 net404 = (Except.error (PyExc.httpError 404), 3) ∧
    fetch_html u0 netTimeout = (Except.error PyExc.timeoutExc, 3) := by
  refine ⟨by decide, (claim_C1 u0 net404 (by decide)).1 404 [] (by decide) (by decide)
    (fun k => rfl), ?_⟩
  obtain ⟨e, he, ha, -⟩ := (claim_C1 u0 netTimeout (by decide)).2 (fun k => Or.inl rfl)
  have h2 : fetch_html_attempt u0 (netTimeout 2) = Except.error PyExc.timeoutExc := by rfl
  rw [ha] at h2
  injection h2 with h3
  rw [h3] at he
  exact he

/-- C2 (corrected): the claim as stated is false: with the credential
    missing, the ValueError is retried by the decorator (which retries on
    any Exception), so the call performs 3 attempts, not 1, before the
    same ValueError reaches the caller. -/
theorem claim_C2_counterexample :
    get_questions_from_text false (("hello").toList) apiFail =
      (Except.error (PyExc.valueError ErrMsg.apiKeyMissing), 3) ∧ (3 ≠ 1) := by
  refine ⟨by rfl, by decide⟩

/-- C2 (amended): when the credential is not configured, or the text is
    empty after trimming, every attempt of get_questions_from_text raises
    the Invalid-Input ValueError; the decorator retries it like any other
    exception, performing 3 attempts with backoff, after which the same
    ValueError reaches the caller. -/
theorem claim_C2 (text : List Char) (api : Nat → ApiOutcome) :
    get_questions_from_text false text api =
      (Except.error (PyExc.valueError ErrMsg.apiKeyMissing), 3) ∧
    (py_strip text = [] →
      get_questions_from_text true text api =
        (Except.error (PyExc.valueError ErrMsg.emptyText), 3)) := by
  constructor
  · have ha : ∀ k, get_questions_attempt false text (api k) =
        Except.error (PyExc.valueError ErrMsg.apiKeyMissing) := fun k => rfl
    unfold get_questions_from_text
    exact retry3_all_error _ _ _ _ _ (ha 0) (ha 1) (ha 2) rfl rfl
  · intro hs
    have ha : ∀ k, get_questions_attempt true text (api k) =
        Except.error (PyExc.valueError ErrMsg.emptyText) := by
      intro k
      unfold get_questions_attempt
      rw [if_neg (by simp), if_pos (Or.inr hs)]
    unfold get_questions_from_text
    exact retry3_all_error _ _ _ _ _ (ha 0) (ha 1) (ha 2) rfl rfl

/-- C2 witness: the amended statement evaluated with a missing credential
    on a 1-character text, and with a configured credential on a
    whitespace-only text. -/
theorem claim_C2_witness :
    get_questions_from_text false (("x").toList) apiFail =
      (Except.error (PyExc.valueError ErrMsg.apiKeyMissing), 3) ∧
    py_strip ((" ").toList) = [] ∧
    get_questions_from_text true ((" ").toList) apiFail =
      (Except.error (PyExc.valueError ErrMsg.emptyText), 3) :=
  ⟨(claim_C2 (("x").toList) apiFail).1, by decide,
   (claim_C2 ((" ").toList) apiFail).2 (by decide)⟩

/-- C3 (code bug): when every GET attempt times out, fetch_html re-raises
    the Timeout, but generate_questions_from_url catches it as a
    RequestException and re-raises a plain RequestException, so the
    endpoint maps the run to 503 through its RequestException handler
    instead of the 408 that its own Timeout handler (and the claim)
    prescribe — that handler is unreachable for fetch timeouts. -/
theorem claim_C3 :
    (fetch_html u0 netTimeout).1 = Except.error PyExc.timeoutExc ∧
    generate_questions_from_url u0 netTimeout soupEmpty true apiFail =
      Except.error PyExc.requestExc ∧
    generate_questions_endpoint u0 netTimeout soupEmpty true apiFail =
      Except.error 503 ∧
    generate_questions_endpoint u0 netTimeout soupEmpty true apiFail ≠
      Except.error 408 := by
  refine ⟨by rfl, by rfl, by rfl, by decide⟩

/-- C6 (corrected): the claim as stated is false: on a cleaned text of
    10001 identical letters with no space anywhere, there is no preceding
    space to back off to — the whole 10000-character prefix is kept and
    the ellipsis is appended, giving a 10003-character result, above the
    10000-character cap. -/
theorem claim_C6_counterexample :
    c0.length = 10001 ∧
    (∀ i d, c0.get? i = some d → d ≠ ' ') ∧
    clamp_extracted c0 = List.replicate 10000 'a' ++ ellipsis ∧
    (clamp_extracted c0).length = 10003 := by
  have hlen : c0.length = 10001 := by
    show (List.replicate 10001 'a').length = 10001
    rw [List.length_replicate]
  have htake : c0.take MAX_TEXT_LENGTH = List.replicate 10000 'a' := by
    show (List.replicate 10001 'a').take 10000 = List.replicate 10000 'a'
    rw [List.take_replicate, Nat.min_eq_left (by omega)]
  have hnsp : (' ' : Char) ∉ List.replicate 10000 'a' := by
    intro hm
    have := (List.mem_replicate.mp hm).2
    simp at this
  have hlio : last_index_of (c0.take MAX_TEXT_LENGTH) ' ' = none := by
    rw [htake]
    exact lio_not_mem hnsp
  have heq : clamp_extracted c0 = List.replicate 10000 'a' ++ ellipsis := by
    unfold clamp_extracted
    rw [if_pos (by rw [hlen]; decide), hlio]
    dsimp only
    rw [htake]
  refine ⟨hlen, ?_, heq, ?_⟩
  · intro i d hg
    have hd : d ∈ List.replicate 10001 'a' := List.get?_mem hg
    have := (List.mem_replicate.mp hd).2
    rw [this]
    decide
  · rw [heq, List.length_append, List.length_replicate]
    rfl

/-- C6 (amended): for a cleaned text longer than 10000 characters the
    extractor cuts at 10000 and backs off to the rightmost space of that
    prefix when the prefix holds one (otherwise it keeps the whole
    prefix), then appends the 3-character ellipsis; the result is at most
    10003 characters. -/
theorem claim_C6 (cleaned : List Char) (h : MAX_TEXT_LENGTH < cleaned.length) :
    clamp_body cleaned := by
  have hgt : cleaned.length > MAX_TEXT_LENGTH := h
  have hlen : (cleaned.take MAX_TEXT_LENGTH).length = MAX_TEXT_LENGTH := by
    rw [List.length_take]
    omega
  cases h2 : last_index_of (cleaned.take MAX_TEXT_LENGTH) ' ' with
  | some sp =>
    have hsp : sp < MAX_TEXT_LENGTH := hlen ▸ get_some_lt (lio_get h2)
    have heq : clamp_extracted cleaned = cleaned.take sp ++ ellipsis := by
      unfold clamp_extracted
      rw [if_pos hgt, h2]
      dsimp only
      rw [List.take_take, Nat.min_eq_left (Nat.le_of_lt hsp)]
    refine ⟨Or.inl ⟨sp, lio_get h2, fun q hq => lio_last h2 q hq, heq⟩, ?_⟩
    rw [heq, List.length_append]
    have h3 : (cleaned.take sp).length ≤ sp := List.length_take_le sp cleaned
    have h4 : ellipsis.length = 3 := rfl
    unfold MAX_TEXT_LENGTH
    unfold MAX_TEXT_LENGTH at hsp
    omega
  | none =>
    have heq : clamp_extracted cleaned = cleaned.take MAX_TEXT_LENGTH ++ ellipsis := by
      unfold clamp_extracted
      rw [if_pos hgt, h2]
    refine ⟨Or.inr ⟨fun q => lio_none h2 q, heq⟩, ?_⟩
    rw [heq, List.length_append, hlen]
    decide

/-- C6 witness: the amended statement evaluated at the spaceless
    10001-character cleaned text. -/
theorem claim_C6_witness :
    MAX_TEXT_LENGTH < c0.length ∧ clamp_body c0 :=
  ⟨by show MAX_TEXT_LENGTH < (List.replicate 10001 'a').length
      rw [List.length_replicate]
      decide,
   claim_C6 c0 (by
      show MAX_TEXT_LENGTH < (List.replicate 10001 'a').length
      rw [List.length_replicate]
      decide)⟩

/-- C8 (confirmed): whenever the extraction step succeeds with a text
    whose stripped length is below the 50-character minimum, the pipeline
    fails with the Insufficient-Text ValueError carrying both the minimum
    and the observed length, for every generator configuration and client
    oracle — so before any generation is attempted. -/
theorem claim_C8 (u : Url) (net : Nat → HttpAttempt) (soup : List Char → SoupView)
    (cfg : Bool) (api : Nat → ApiOutcome) (t : List Char)
    (hx : extract_text_from_url u net soup = Except.ok t)
    (hlen : (py_strip t).length < MIN_TEXT_LENGTH) :
    generate_questions_from_url u net soup cfg api =
      Except.error (PyExc.valueError
        (ErrMsg.insufficientText MIN_TEXT_LENGTH (py_strip t).length)) := by
  unfold generate_questions_from_url
  rw [hx]
  dsimp only
  rw [if_pos (Or.inr hlen)]

/-- C8 witness: a page whose extracted and cleaned text is 30 characters
    fails with Insufficient-Text naming minimum 50 and actual 30. -/
theorem claim_C8_witness :
    extract_text_from_url u0 netOk soup30 = Except.ok (List.replicate 30 'a') ∧
    (py_strip (List.replicate 30 'a')).length < MIN_TEXT_LENGTH ∧
    generate_questions_from_url u0 netOk soup30 true apiFail =
      Except.error (PyExc.valueError (ErrMsg.insufficientText 50 30)) := by
  refine ⟨by rfl, by decide, ?_⟩
  exact claim_C8 u0 netOk soup30 true apiFail (List.replicate 30 'a') (by rfl) (by decide)

end UQ
